import Mathlib

/-!
# Philippines Warehouse Address & Delivery Service — core verification

Shallow embedding of the parcel-lifecycle core of the repository
(ParcelsService, ExceptionsService, DeliveriesService, AuditService,
IdempotencyInterceptor, ParcelStateMachineValidator) and proofs of the
testable properties stated in the specification.

Modelling conventions:
* Database rows become Lean structures; the persistent store is a `DB`
  structure of row lists. Prisma id generation is modelled by a `nextId`
  counter on `DB`.
* Each service method becomes a function `args → DB → Except ApiError α × DB`:
  the first component is the HTTP outcome, the second the persistent state
  after the call (unchanged when the method throws before mutating,
  mutated-but-committed when the method throws after its `$transaction`).
* A Prisma `$transaction` block is a single pure step, so its atomicity is
  structural.  Writes performed outside a transaction (notably the
  `auditService.log` calls that every service issues *after* its
  transaction) are separate steps; whether the audit insert succeeds is
  modelled by an explicit `auditOk : Bool` argument.
* `Date` values are `Nat` timestamps (hours, so that the 24-hour
  idempotency TTL is `now + 24`).  Floating-point weights and fees are
  modelled as `ℚ`; `Math.ceil` is `Int.ceil`.
* Request metadata (ip, user agent) and denormalised actor emails/roles,
  which never influence control flow, are omitted from the audit rows.
* Fire-and-forget notifications are omitted (spec §6: failures never roll
  back the core transaction, and they touch none of the entities here).
-/

namespace Warehouse

/-- Parcel lifecycle states, from the `ParcelState` Prisma enum. -/
inductive ParcelState
  | EXPECTED
  | ARRIVED
  | STORED
  | DELIVERY_REQUESTED
  | OUT_FOR_DELIVERY
  | DELIVERED
deriving DecidableEq, Repr

/-- Exception categories, from the `ExceptionType` Prisma enum. -/
inductive ExceptionType
  | MISSING_MEMBER_CODE
  | INVALID_MEMBER_CODE
  | ILLEGIBLE_LABEL
  | DAMAGED_PARCEL
  | DUPLICATE_TRACKING
  | CONFLICTING_OWNERSHIP
  | OTHER
deriving DecidableEq, Repr

/-- Exception workflow status, from the `ExceptionStatus` Prisma enum. -/
inductive ExceptionStatus
  | OPEN
  | IN_PROGRESS
  | RESOLVED
  | CANCELLED
deriving DecidableEq, Repr

/-- Delivery payment status, from the `PaymentStatus` Prisma enum. -/
inductive PaymentStatus
  | PENDING
  | CONFIRMED
  | FAILED
  | REFUNDED
deriving DecidableEq, Repr

/-- Printable state names, used to build the service error messages. -/
def ParcelState.toName : ParcelState → String
  | .EXPECTED => "EXPECTED"
  | .ARRIVED => "ARRIVED"
  | .STORED => "STORED"
  | .DELIVERY_REQUESTED => "DELIVERY_REQUESTED"
  | .OUT_FOR_DELIVERY => "OUT_FOR_DELIVERY"
  | .DELIVERED => "DELIVERED"

/-- `User` row (the fields the core reads: member-code lookup target and
actor existence; profile/address fields from `requestDelivery`). -/
structure User where
  id : Nat
  memberCode : String
  isActive : Bool
  isDeleted : Bool
  deliveryStreet : Option String := none
  deliveryCity : Option String := none
  deliveryProvince : Option String := none
  deliveryZipCode : Option String := none
deriving DecidableEq, Repr

/-- `Parcel` row. -/
structure Parcel where
  id : Nat
  trackingNumber : String
  memberCode : String
  weight : ℚ
  description : Option String := none
  state : ParcelState
  ownerId : Option Nat
  registeredById : Nat
  hasException : Bool
  storedAt : Option Nat := none
  isDeleted : Bool := false
deriving DecidableEq, Repr

/-- `ParcelStateHistory` row (append-only ledger). -/
structure HistoryRow where
  parcelId : Nat
  fromState : Option ParcelState
  toState : ParcelState
  changedById : Nat
  notes : Option String
deriving DecidableEq, Repr

/-- `Exception` row. -/
structure Exc where
  id : Nat
  parcelId : Nat
  type : ExceptionType
  status : ExceptionStatus
  description : String
  resolution : Option String := none
  resolvedAt : Option Nat := none
  createdById : Nat
  handledById : Option Nat := none
deriving DecidableEq, Repr

/-- `Delivery` row. -/
structure Delivery where
  id : Nat
  parcelId : Nat
  recipientId : Nat
  deliveryStreet : String
  deliveryCity : String
  deliveryProvince : String
  deliveryZipCode : String
  weightKg : ℚ
  baseFee : ℚ
  weightFee : ℚ
  totalFee : ℚ
  paymentStatus : PaymentStatus
  paymentConfirmedAt : Option Nat := none
  paymentConfirmedById : Option Nat := none
  dispatchedAt : Option Nat := none
  deliveredAt : Option Nat := none
deriving DecidableEq, Repr

/-- `AuditLog` row (request metadata and denormalised emails omitted). -/
structure AuditEntry where
  actorId : Option Nat
  action : String
  entityType : String
  entityId : Nat
  parcelId : Option Nat := none
  deliveryId : Option Nat := none
  exceptionId : Option Nat := none
deriving DecidableEq, Repr

/-- `FeeConfiguration` row. -/
structure FeeConfig where
  isActive : Bool
  minWeight : ℚ
  maxWeight : Option ℚ
  baseFee : ℚ
  perKgRate : ℚ
deriving DecidableEq, Repr

/-- `IdempotencyKey` row (`id` is the client-supplied key). -/
structure IdemRecord where
  id : String
  userId : Option Nat
  endpoint : String
  method : String
  statusCode : Nat
  response : String
  expiresAt : Nat
deriving DecidableEq, Repr

/-- The relational store. `nextId` models Prisma id generation. -/
structure DB where
  nextId : Nat
  users : List User
  parcels : List Parcel
  exceptions : List Exc
  history : List HistoryRow
  deliveries : List Delivery
  audits : List AuditEntry
  feeConfigs : List FeeConfig
deriving DecidableEq, Repr

/-- HTTP-level error taxonomy of the NestJS services. `auditFailure`
stands for a database error raised by the (post-transaction) audit
insert. `internalError` stands for broken referential integrity, which
Prisma's relation `include` makes impossible on a well-formed store. -/
inductive ApiError
  | notFound (msg : String)
  | badRequest (msg : String)
  | forbidden (msg : String)
  | conflict (msg : String)
  | auditFailure
  | internalError
deriving DecidableEq, Repr

/-- Outcome of one service call: the HTTP result and the persistent
state after the call returns (or throws). -/
abbrev OpResult (α : Type) := Except ApiError α × DB

namespace DB

/-- `prisma.parcel.findUnique({ where: { id } })`. -/
def findParcel (db : DB) (parcelId : Nat) : Option Parcel :=
  db.parcels.find? (fun p => p.id == parcelId)

/-- `prisma.parcel.findUnique({ where: { trackingNumber } })`. -/
def findParcelByTracking (db : DB) (trackingNumber : String) : Option Parcel :=
  db.parcels.find? (fun p => p.trackingNumber == trackingNumber)

/-- `prisma.user.findUnique({ where: { memberCode } })`. -/
def findUserByMemberCode (db : DB) (memberCode : String) : Option User :=
  db.users.find? (fun u => u.memberCode == memberCode)

/-- `prisma.user.findUnique({ where: { id } })`. -/
def findUserById (db : DB) (userId : Nat) : Option User :=
  db.users.find? (fun u => u.id == userId)

/-- `prisma.exception.findUnique({ where: { id } })`. -/
def findExc (db : DB) (excId : Nat) : Option Exc :=
  db.exceptions.find? (fun e => e.id == excId)

/-- `prisma.delivery.findUnique({ where: { id } })`. -/
def findDelivery (db : DB) (deliveryId : Nat) : Option Delivery :=
  db.deliveries.find? (fun d => d.id == deliveryId)

/-- `include: { delivery: true }` on a parcel: its one-to-one delivery. -/
def findDeliveryByParcel (db : DB) (parcelId : Nat) : Option Delivery :=
  db.deliveries.find? (fun d => d.parcelId == parcelId)

/-- `prisma.parcel.update({ where: { id } })`. -/
def updateParcel (db : DB) (parcelId : Nat) (f : Parcel → Parcel) : DB :=
  { db with parcels := db.parcels.map (fun p => if p.id == parcelId then f p else p) }

/-- `prisma.exception.update({ where: { id } })`. -/
def updateExc (db : DB) (excId : Nat) (f : Exc → Exc) : DB :=
  { db with exceptions := db.exceptions.map (fun e => if e.id == excId then f e else e) }

/-- `prisma.delivery.update({ where: { id } })`. -/
def updateDelivery (db : DB) (deliveryId : Nat) (f : Delivery → Delivery) : DB :=
  { db with deliveries := db.deliveries.map (fun d => if d.id == deliveryId then f d else d) }

/-- `prisma.user.update({ where: { id } })`. -/
def updateUser (db : DB) (userId : Nat) (f : User → User) : DB :=
  { db with users := db.users.map (fun u => if u.id == userId then f u else u) }

end DB

/-!
## §4.1 State Transition Validator
`src/apps/api/src/common/validators/parcel-state-machine.validator.ts`
-/

namespace Validator

/-- `VALID_STATE_TRANSITIONS` constant of the validator file. -/
def VALID_STATE_TRANSITIONS : ParcelState → List ParcelState
  | .EXPECTED => [.ARRIVED]
  | .ARRIVED => [.STORED]
  | .STORED => [.DELIVERY_REQUESTED]
  | .DELIVERY_REQUESTED => [.OUT_FOR_DELIVERY]
  | .OUT_FOR_DELIVERY => [.DELIVERED]
  | .DELIVERED => []

/-- `TRANSITION_RULES` constant: the human-readable rule appended to the
invalid-transition error. -/
def TRANSITION_RULES : ParcelState → String
  | .EXPECTED =>
      "Expected parcels can only transition to ARRIVED when physically received"
  | .ARRIVED => "Arrived parcels must be processed and moved to STORED"
  | .STORED => "Stored parcels can only transition to DELIVERY_REQUESTED by user"
  | .DELIVERY_REQUESTED =>
      "Delivery requested parcels transition to OUT_FOR_DELIVERY when dispatched"
  | .OUT_FOR_DELIVERY =>
      "Out for delivery parcels transition to DELIVERED upon completion"
  | .DELIVERED => "Delivered is a terminal state - no further transitions allowed"

/-- Result record returned by `validateTransition`. -/
structure ValidationResult where
  valid : Bool
  error : Option String
  fromState : ParcelState
  toState : ParcelState
deriving DecidableEq, Repr

/-- `isValidAdminOverride`: the admin-only backward-transition allowlist. -/
def isValidAdminOverride (fromState toState : ParcelState) : Bool :=
  let allowed : List ParcelState :=
    match fromState with
    | .DELIVERED => [.STORED]
    | .OUT_FOR_DELIVERY => [.STORED]
    | .DELIVERY_REQUESTED => [.STORED]
    | _ => []
  allowed.contains toState

/-- `ParcelStateMachineValidator.validateTransition`. -/
def validateTransition (fromState toState : ParcelState)
    (hasException : Bool := false) (isAdminOverride : Bool := false) :
    ValidationResult :=
  if fromState = toState then
    { valid := false
      error := some ("Parcel is already in " ++ toState.toName ++ " state")
      fromState, toState }
  else if hasException && !isAdminOverride then
    { valid := false
      error := some
        "Parcel has an active exception. Exception must be resolved before state changes."
      fromState, toState }
  else if !(VALID_STATE_TRANSITIONS fromState).contains toState then
    if isAdminOverride && isValidAdminOverride fromState toState then
      { valid := true, error := none, fromState, toState }
    else
      { valid := false
        error := some ("Invalid transition from " ++ fromState.toName ++ " to "
          ++ toState.toName ++ ". " ++ TRANSITION_RULES fromState)
        fromState, toState }
  else
    { valid := true, error := none, fromState, toState }

end Validator

/-!
## §4.2 Audit Recorder
`src/apps/api/src/modules/audit/audit.service.ts`
-/

namespace AuditService

/-- `AuditService.log`: a single `prisma.auditLog.create`. The `ok` flag
models whether that insert succeeds; on failure the awaited promise
rejects, which the services do not catch. -/
def log (entry : AuditEntry) (ok : Bool) (db : DB) : Except ApiError DB :=
  if ok then .ok { db with audits := db.audits ++ [entry] }
  else .error .auditFailure

end AuditService

/-!
## §4.4 Parcel Lifecycle Service
`ParcelsService` (apps/api/src/modules/parcels/parcels.service.ts)
-/

namespace ParcelsService

/-- The service's own inline `STATE_TRANSITIONS` constant (declared in
parcels.service.ts, separate from the validator file's table). -/
def STATE_TRANSITIONS : ParcelState → List ParcelState
  | .EXPECTED => [.ARRIVED]
  | .ARRIVED => [.STORED]
  | .STORED => [.DELIVERY_REQUESTED]
  | .DELIVERY_REQUESTED => [.OUT_FOR_DELIVERY]
  | .OUT_FOR_DELIVERY => [.DELIVERED]
  | .DELIVERED => []

/-- `IntakeParcelDto`. -/
structure IntakeDto where
  trackingNumber : String
  memberCode : String
  weight : ℚ
  description : Option String := none
deriving DecidableEq, Repr

/-- `ParcelsService.intake`: duplicate-tracking check, owner resolution
by member code, orphan detection, then one transaction creating the
parcel, its first (null → ARRIVED) history row and — when orphaned — an
`INVALID_MEMBER_CODE` exception (status defaults to OPEN in the schema);
the audit entry is written after the transaction commits. -/
def intake (dto : IntakeDto) (staffId : Nat) (auditOk : Bool) (db : DB) :
    OpResult (Parcel × Option Exc) :=
  match db.findParcelByTracking dto.trackingNumber with
  | some _ =>
      (.error (.badRequest ("Parcel with tracking number " ++ dto.trackingNumber
        ++ " already exists")), db)
  | none =>
    let owner := db.findUserByMemberCode dto.memberCode
    let isOrphan :=
      match owner with
      | none => true
      | some u => u.isDeleted || !u.isActive
    let parcel : Parcel :=
      { id := db.nextId
        trackingNumber := dto.trackingNumber
        memberCode := dto.memberCode
        weight := dto.weight
        description := dto.description
        state := .ARRIVED
        ownerId := if isOrphan then none else owner.map User.id
        registeredById := staffId
        hasException := isOrphan }
    let historyRow : HistoryRow :=
      { parcelId := parcel.id
        fromState := none
        toState := .ARRIVED
        changedById := staffId
        notes := some "Parcel registered at intake" }
    let exc : Option Exc :=
      if isOrphan then
        some
          { id := db.nextId + 1
            parcelId := parcel.id
            type := .INVALID_MEMBER_CODE
            status := .OPEN
            description := "Member code " ++ dto.memberCode ++ " not resolvable"
            createdById := staffId }
      else none
    let db1 : DB :=
      { db with
        nextId := db.nextId + 2
        parcels := db.parcels ++ [parcel]
        history := db.history ++ [historyRow]
        exceptions := db.exceptions ++ exc.toList }
    match AuditService.log
      { actorId := some staffId, action := "PARCEL_REGISTERED"
        entityType := "Parcel", entityId := parcel.id
        parcelId := some parcel.id } auditOk db1 with
    | .ok db2 => (.ok (parcel, exc), db2)
    | .error e => (.error e, db1)

/-- `ParcelsService.updateState`: not-found / soft-delete check, an
unconditional exception-lock check, a one-step-forward check against the
service's inline `STATE_TRANSITIONS` table, then one transaction
updating the parcel (setting `storedAt` the first time the state becomes
STORED) and appending the history row; the audit entry is written after
the transaction commits. -/
def updateState (parcelId : Nat) (newState : ParcelState) (notes : Option String)
    (userId : Nat) (now : Nat) (auditOk : Bool) (db : DB) : OpResult Parcel :=
  match db.findParcel parcelId with
  | none => (.error (.notFound "Parcel not found"), db)
  | some parcel =>
    if parcel.isDeleted then (.error (.notFound "Parcel not found"), db)
    else if parcel.hasException then
      (.error (.forbidden "Cannot change state: parcel has unresolved exception"), db)
    else if !(STATE_TRANSITIONS parcel.state).contains newState then
      (.error (.badRequest ("Invalid state transition: " ++ parcel.state.toName
        ++ " -> " ++ newState.toName)), db)
    else
      let updated : Parcel :=
        { parcel with
          state := newState
          storedAt := if newState = .STORED then some now else parcel.storedAt }
      let db0 := db.updateParcel parcelId (fun _ => updated)
      let db1 :=
        { db0 with
          history := db0.history ++
            [{ parcelId, fromState := some parcel.state, toState := newState
               changedById := userId, notes }] }
      match AuditService.log
        { actorId := some userId, action := "PARCEL_STATE_CHANGED"
          entityType := "Parcel", entityId := parcelId
          parcelId := some parcelId } auditOk db1 with
      | .ok db2 => (.ok updated, db2)
      | .error e => (.error e, db1)

/-- `ParcelsService.overrideOwnership` (admin only): resolves the new
owner by member code, rejects an inactive or soft-deleted match, then
updates `ownerId` (null when the code matches no user, producing an
orphan) and the stored member code; audit entry afterwards. -/
def overrideOwnership (parcelId : Nat) (newOwnerMemberCode : String)
    (adminId : Nat) (auditOk : Bool) (db : DB) : OpResult Parcel :=
  match db.findParcel parcelId with
  | none => (.error (.notFound "Parcel not found"), db)
  | some parcel =>
    if parcel.isDeleted then (.error (.notFound "Parcel not found"), db)
    else
      let newOwner := db.findUserByMemberCode newOwnerMemberCode
      match newOwner with
      | some u =>
        if u.isDeleted || !u.isActive then
          (.error (.badRequest "Cannot assign parcel to inactive or deleted user"), db)
        else
          finishOverride parcelId newOwnerMemberCode adminId auditOk db parcel (some u)
      | none =>
          finishOverride parcelId newOwnerMemberCode adminId auditOk db parcel none
where
  /-- The `prisma.parcel.update` + audit tail of `overrideOwnership`. -/
  finishOverride (parcelId : Nat) (newOwnerMemberCode : String) (adminId : Nat)
      (auditOk : Bool) (db : DB) (parcel : Parcel) (newOwner : Option User) :
      OpResult Parcel :=
    let updated : Parcel :=
      { parcel with
        ownerId := newOwner.map User.id
        memberCode := newOwnerMemberCode }
    let db1 := db.updateParcel parcelId (fun _ => updated)
    match AuditService.log
      { actorId := some adminId, action := "PARCEL_OWNER_ASSIGNED"
        entityType := "Parcel", entityId := parcelId
        parcelId := some parcelId } auditOk db1 with
    | .ok db2 => (.ok updated, db2)
    | .error e => (.error e, db1)

/-- `ParcelsService.softDelete` (admin only): marks `isDeleted` and
writes an audit entry; history, exceptions and deliveries are untouched. -/
def softDelete (parcelId : Nat) (adminId : Nat) (auditOk : Bool) (db : DB) :
    OpResult Parcel :=
  match db.findParcel parcelId with
  | none => (.error (.notFound "Parcel not found"), db)
  | some parcel =>
    if parcel.isDeleted then (.error (.notFound "Parcel not found"), db)
    else
      let updated := { parcel with isDeleted := true }
      let db1 := db.updateParcel parcelId (fun _ => updated)
      match AuditService.log
        { actorId := some adminId, action := "PARCEL_DELETED"
          entityType := "Parcel", entityId := parcelId
          parcelId := some parcelId } auditOk db1 with
      | .ok db2 => (.ok updated, db2)
      | .error e => (.error e, db1)

end ParcelsService

/-!
## §4.5 Exception Lifecycle Service
`ExceptionsService` (apps/api/src/modules/exceptions/exceptions.service.ts)
-/

namespace ExceptionsService

/-- The `count` of OPEN/IN_PROGRESS exceptions on `parcelId` other than
`excId` — the query `resolve` and `cancel` run inside their transaction. -/
def countOtherOpen (db : DB) (parcelId excId : Nat) : Nat :=
  (db.exceptions.filter (fun e =>
    e.parcelId == parcelId && e.id != excId &&
      (e.status == ExceptionStatus.OPEN || e.status == ExceptionStatus.IN_PROGRESS))).length

/-- `ExceptionsService.create` (staff): parcel must exist and not be
soft-deleted, no OPEN/IN_PROGRESS exception of the same type may exist,
then one transaction creates the OPEN exception and sets the parcel's
`hasException` flag; audit entry afterwards. -/
def create (parcelId : Nat) (type : ExceptionType) (description : String)
    (staffId : Nat) (auditOk : Bool) (db : DB) : OpResult Exc :=
  match db.findParcel parcelId with
  | none => (.error (.notFound "Parcel not found"), db)
  | some parcel =>
    if parcel.isDeleted then (.error (.notFound "Parcel not found"), db)
    else if (db.exceptions.any (fun e =>
        e.parcelId == parcelId && e.type == type &&
          (e.status == ExceptionStatus.OPEN ||
            e.status == ExceptionStatus.IN_PROGRESS))) then
      (.error (.badRequest "An open exception of this type already exists for this parcel"), db)
    else
      let exc : Exc :=
        { id := db.nextId, parcelId, type, status := .OPEN, description
          createdById := staffId }
      let db1 :=
        { db.updateParcel parcelId (fun p => { p with hasException := true }) with
          nextId := db.nextId + 1
          exceptions := db.exceptions ++ [exc] }
      match AuditService.log
        { actorId := some staffId, action := "EXCEPTION_CREATED"
          entityType := "Exception", entityId := exc.id
          parcelId := some parcelId, exceptionId := some exc.id } auditOk db1 with
      | .ok db2 => (.ok exc, db2)
      | .error e => (.error e, db1)

/-- `ExceptionsService.assign` (admin): legal only before a terminal
status; moves the exception to IN_PROGRESS and sets the handler. -/
def assign (excId : Nat) (adminId : Nat) (auditOk : Bool) (db : DB) :
    OpResult Exc :=
  match db.findExc excId with
  | none => (.error (.notFound "Exception not found"), db)
  | some exc =>
    if exc.status = .RESOLVED then
      (.error (.badRequest "Exception is already resolved"), db)
    else if exc.status = .CANCELLED then
      (.error (.badRequest "Exception is cancelled"), db)
    else
      let updated := { exc with status := .IN_PROGRESS, handledById := some adminId }
      let db1 := db.updateExc excId (fun _ => updated)
      match AuditService.log
        { actorId := some adminId, action := "EXCEPTION_ASSIGNED"
          entityType := "Exception", entityId := excId
          parcelId := some exc.parcelId, exceptionId := some excId } auditOk db1 with
      | .ok db2 => (.ok updated, db2)
      | .error e => (.error e, db1)

/-- `ExceptionsService.resolve` (admin): rejects terminal statuses, then
one transaction sets the exception RESOLVED (resolution text,
resolved-at, handler) and clears the parcel's `hasException` flag
exactly when no other OPEN/IN_PROGRESS exception remains on the parcel;
audit entry afterwards. -/
def resolve (excId : Nat) (resolution : String) (adminId : Nat) (now : Nat)
    (auditOk : Bool) (db : DB) : OpResult Exc :=
  match db.findExc excId with
  | none => (.error (.notFound "Exception not found"), db)
  | some exc =>
    if exc.status = .RESOLVED then
      (.error (.badRequest "Exception is already resolved"), db)
    else if exc.status = .CANCELLED then
      (.error (.badRequest "Cannot resolve a cancelled exception"), db)
    else
      let updated :=
        { exc with
          status := .RESOLVED
          resolution := some resolution
          resolvedAt := some now
          handledById := some adminId }
      let dbA := db.updateExc excId (fun _ => updated)
      let otherOpen := countOtherOpen dbA exc.parcelId excId
      let db1 :=
        if otherOpen = 0 then
          dbA.updateParcel exc.parcelId (fun p => { p with hasException := false })
        else dbA
      match AuditService.log
        { actorId := some adminId, action := "EXCEPTION_RESOLVED"
          entityType := "Exception", entityId := excId
          parcelId := some exc.parcelId, exceptionId := some excId } auditOk db1 with
      | .ok db2 => (.ok updated, db2)
      | .error e => (.error e, db1)

/-- `ExceptionsService.cancel` (admin): rejects terminal statuses, then
one transaction sets the exception CANCELLED (handler recorded) and
re-evaluates the parcel unlock exactly as `resolve` does. -/
def cancel (excId : Nat) (adminId : Nat) (auditOk : Bool) (db : DB) :
    OpResult Exc :=
  match db.findExc excId with
  | none => (.error (.notFound "Exception not found"), db)
  | some exc =>
    if exc.status = .RESOLVED then
      (.error (.badRequest "Cannot cancel a resolved exception"), db)
    else if exc.status = .CANCELLED then
      (.error (.badRequest "Exception is already cancelled"), db)
    else
      let updated := { exc with status := .CANCELLED, handledById := some adminId }
      let dbA := db.updateExc excId (fun _ => updated)
      let otherOpen := countOtherOpen dbA exc.parcelId excId
      let db1 :=
        if otherOpen = 0 then
          dbA.updateParcel exc.parcelId (fun p => { p with hasException := false })
        else dbA
      match AuditService.log
        { actorId := some adminId, action := "EXCEPTION_CANCELLED"
          entityType := "Exception", entityId := excId
          parcelId := some exc.parcelId, exceptionId := some excId } auditOk db1 with
      | .ok db2 => (.ok updated, db2)
      | .error e => (.error e, db1)

end ExceptionsService

/-!
## §4.6 Delivery Fulfillment Service
`DeliveriesService` (apps/api/src/modules/deliveries/deliveries.service.ts)
-/

namespace DeliveriesService

/-- The fee-breakdown record returned by `calculateFee`. -/
structure FeeBreakdown where
  baseFee : ℚ
  weightFee : ℚ
  totalFee : ℚ
deriving DecidableEq, Repr

/-- The Prisma `where` filter of `calculateFee`: active configuration
with `minWeight: { lte: weightKg }` and
`OR: [{ maxWeight: null }, { maxWeight: { gte: weightKg } }]`. -/
def feeMatches (weightKg : ℚ) (c : FeeConfig) : Bool :=
  c.isActive && decide (c.minWeight ≤ weightKg) &&
    (match c.maxWeight with
     | none => true
     | some mw => decide (weightKg ≤ mw))

/-- Fold step realising `orderBy: { minWeight: 'desc' }` + `findFirst`:
keep the earlier candidate unless a strictly higher `minWeight` appears. -/
def keepHigherMin (best : Option FeeConfig) (c : FeeConfig) : Option FeeConfig :=
  match best with
  | none => some c
  | some b => if c.minWeight > b.minWeight then some c else some b

/-- `findFirst` with `orderBy: { minWeight: 'desc' }` over the matching
configurations: the first configuration carrying the maximal `minWeight`. -/
def selectFeeConfig (cfgs : List FeeConfig) (weightKg : ℚ) : Option FeeConfig :=
  (cfgs.filter (feeMatches weightKg)).foldl keepHigherMin none

/-- `DeliveriesService.calculateFee`: select the configuration, fall back
to base 50 / per-kg 20 when none matches, round the weight up to the
next whole kilogram, and charge base + roundedWeight × perKgRate. -/
def calculateFee (cfgs : List FeeConfig) (weightKg : ℚ) : FeeBreakdown :=
  let cfg := selectFeeConfig cfgs weightKg
  let baseFee := (cfg.map FeeConfig.baseFee).getD 50
  let perKgRate := (cfg.map FeeConfig.perKgRate).getD 20
  let roundedWeight : ℤ := ⌈weightKg⌉
  let weightFee := (roundedWeight : ℚ) * perKgRate
  { baseFee, weightFee, totalFee := baseFee + weightFee }

/-- `RequestDeliveryDto`. -/
structure RequestDeliveryDto where
  parcelId : Nat
  deliveryStreet : String
  deliveryCity : String
  deliveryProvince : String
  deliveryZipCode : String
deriving DecidableEq, Repr

/-- `DeliveriesService.requestDelivery` (parcel owner): checks, in the
source's order — parcel exists and not soft-deleted, caller owns it,
state is STORED, no delivery row exists yet, no exception lock — then
computes the fee and, in one transaction, creates the PENDING delivery,
moves the parcel to DELIVERY_REQUESTED, appends the history row and
stores the address on the caller's profile; audit entry afterwards. -/
def requestDelivery (dto : RequestDeliveryDto) (userId : Nat) (auditOk : Bool)
    (db : DB) : OpResult (Delivery × Parcel) :=
  match db.findParcel dto.parcelId with
  | none => (.error (.notFound "Parcel not found"), db)
  | some parcel =>
    if parcel.isDeleted then (.error (.notFound "Parcel not found"), db)
    else if parcel.ownerId ≠ some userId then
      (.error (.forbidden "You do not own this parcel"), db)
    else if parcel.state ≠ .STORED then
      (.error (.badRequest ("Parcel must be in STORED state to request delivery. Current state: "
        ++ parcel.state.toName)), db)
    else if (db.findDeliveryByParcel dto.parcelId).isSome then
      (.error (.badRequest "Delivery already requested for this parcel"), db)
    else if parcel.hasException then
      (.error (.forbidden "Cannot request delivery: parcel has unresolved exception"), db)
    else
      let fee := calculateFee db.feeConfigs parcel.weight
      let delivery : Delivery :=
        { id := db.nextId
          parcelId := dto.parcelId
          recipientId := userId
          deliveryStreet := dto.deliveryStreet
          deliveryCity := dto.deliveryCity
          deliveryProvince := dto.deliveryProvince
          deliveryZipCode := dto.deliveryZipCode
          weightKg := parcel.weight
          baseFee := fee.baseFee
          weightFee := fee.weightFee
          totalFee := fee.totalFee
          paymentStatus := .PENDING }
      let updatedParcel := { parcel with state := ParcelState.DELIVERY_REQUESTED }
      let db1 :=
        { db.updateParcel dto.parcelId (fun _ => updatedParcel) with
          nextId := db.nextId + 1
          deliveries := db.deliveries ++ [delivery] }
      let db1 :=
        { db1.updateUser userId (fun u =>
            { u with
              deliveryStreet := some dto.deliveryStreet
              deliveryCity := some dto.deliveryCity
              deliveryProvince := some dto.deliveryProvince
              deliveryZipCode := some dto.deliveryZipCode }) with
          history := db1.history ++
            [{ parcelId := dto.parcelId, fromState := some ParcelState.STORED
               toState := ParcelState.DELIVERY_REQUESTED
               changedById := userId, notes := some "Delivery requested by user" }] }
      match AuditService.log
        { actorId := some userId, action := "DELIVERY_REQUESTED"
          entityType := "Delivery", entityId := delivery.id
          parcelId := some dto.parcelId, deliveryId := some delivery.id } auditOk db1 with
      | .ok db2 => (.ok (delivery, updatedParcel), db2)
      | .error e => (.error e, db1)

/-- `DeliveriesService.confirmPayment` (staff): rejects CONFIRMED or
REFUNDED payments, then a single update sets CONFIRMED with confirmer
and timestamp; audit entry afterwards. -/
def confirmPayment (deliveryId : Nat) (staffId : Nat) (now : Nat)
    (auditOk : Bool) (db : DB) : OpResult Delivery :=
  match db.findDelivery deliveryId with
  | none => (.error (.notFound "Delivery not found"), db)
  | some delivery =>
    if delivery.paymentStatus = .CONFIRMED then
      (.error (.badRequest "Payment already confirmed"), db)
    else if delivery.paymentStatus = .REFUNDED then
      (.error (.badRequest "Cannot confirm refunded payment"), db)
    else
      let updated :=
        { delivery with
          paymentStatus := PaymentStatus.CONFIRMED
          paymentConfirmedAt := some now
          paymentConfirmedById := some staffId }
      let db1 := db.updateDelivery deliveryId (fun _ => updated)
      match AuditService.log
        { actorId := some staffId, action := "DELIVERY_PAYMENT_CONFIRMED"
          entityType := "Delivery", entityId := deliveryId
          parcelId := some delivery.parcelId, deliveryId := some deliveryId }
        auditOk db1 with
      | .ok db2 => (.ok updated, db2)
      | .error e => (.error e, db1)

/-- `DeliveriesService.dispatch` (staff): requires the delivery to exist
(`include: { parcel: true }`), payment CONFIRMED and the parcel in
DELIVERY_REQUESTED — the exception-lock flag is not consulted — then one
transaction sets `dispatchedAt`, moves the parcel to OUT_FOR_DELIVERY
and appends the history row; audit entry afterwards. -/
def dispatch (deliveryId : Nat) (staffId : Nat) (now : Nat) (auditOk : Bool)
    (db : DB) : OpResult (Delivery × Parcel) :=
  match db.findDelivery deliveryId with
  | none => (.error (.notFound "Delivery not found"), db)
  | some delivery =>
    match db.findParcel delivery.parcelId with
    | none => (.error .internalError, db)
    | some parcel =>
      if delivery.paymentStatus ≠ .CONFIRMED then
        (.error (.badRequest "Cannot dispatch: payment not confirmed"), db)
      else if parcel.state ≠ .DELIVERY_REQUESTED then
        (.error (.badRequest ("Cannot dispatch: parcel is in "
          ++ parcel.state.toName ++ " state")), db)
      else
        let updatedDelivery := { delivery with dispatchedAt := some now }
        let updatedParcel := { parcel with state := ParcelState.OUT_FOR_DELIVERY }
        let db1 :=
          (db.updateDelivery deliveryId (fun _ => updatedDelivery)).updateParcel
            delivery.parcelId (fun _ => updatedParcel)
        let db1 :=
          { db1 with
            history := db1.history ++
              [{ parcelId := delivery.parcelId
                 fromState := some ParcelState.DELIVERY_REQUESTED
                 toState := ParcelState.OUT_FOR_DELIVERY
                 changedById := staffId, notes := some "Parcel dispatched for delivery" }] }
        match AuditService.log
          { actorId := some staffId, action := "DELIVERY_DISPATCHED"
            entityType := "Delivery", entityId := deliveryId
            parcelId := some delivery.parcelId, deliveryId := some deliveryId }
          auditOk db1 with
        | .ok db2 => (.ok (updatedDelivery, updatedParcel), db2)
        | .error e => (.error e, db1)

/-- `DeliveriesService.complete` (staff): requires the delivery to exist
and the parcel to be OUT_FOR_DELIVERY — again without consulting the
exception-lock flag — then one transaction sets `deliveredAt`, moves the
parcel to DELIVERED and appends the history row; audit entry afterwards. -/
def complete (deliveryId : Nat) (staffId : Nat) (now : Nat) (auditOk : Bool)
    (db : DB) : OpResult (Delivery × Parcel) :=
  match db.findDelivery deliveryId with
  | none => (.error (.notFound "Delivery not found"), db)
  | some delivery =>
    match db.findParcel delivery.parcelId with
    | none => (.error .internalError, db)
    | some parcel =>
      if parcel.state ≠ .OUT_FOR_DELIVERY then
        (.error (.badRequest ("Cannot complete: parcel is in "
          ++ parcel.state.toName ++ " state")), db)
      else
        let updatedDelivery := { delivery with deliveredAt := some now }
        let updatedParcel := { parcel with state := ParcelState.DELIVERED }
        let db1 :=
          (db.updateDelivery deliveryId (fun _ => updatedDelivery)).updateParcel
            delivery.parcelId (fun _ => updatedParcel)
        let db1 :=
          { db1 with
            history := db1.history ++
              [{ parcelId := delivery.parcelId
                 fromState := some ParcelState.OUT_FOR_DELIVERY
                 toState := ParcelState.DELIVERED
                 changedById := staffId, notes := some "Parcel delivered to recipient" }] }
        match AuditService.log
          { actorId := some staffId, action := "DELIVERY_COMPLETED"
            entityType := "Delivery", entityId := deliveryId
            parcelId := some delivery.parcelId, deliveryId := some deliveryId }
          auditOk db1 with
        | .ok db2 => (.ok (updatedDelivery, updatedParcel), db2)
        | .error e => (.error e, db1)

end DeliveriesService

/-!
## §4.3 Idempotency Cache
`IdempotencyInterceptor` (apps/api/src/common/interceptors)
-/

namespace Idempotency

/-- The slice of the Express request the interceptor reads. -/
structure HttpRequest where
  method : String
  path : String
  idempotencyKey : Option String
  userId : Option Nat
deriving DecidableEq, Repr

/-- `TTL_HOURS` constant of the interceptor. -/
def TTL_HOURS : Nat := 24

/-- `prisma.idempotencyKey.findUnique({ where: { id: idempotencyKey } })`
— the lookup is by the client key alone. -/
def findRecord (keys : List IdemRecord) (key : String) : Option IdemRecord :=
  keys.find? (fun r => r.id == key)

/-- Result of one pass through the interceptor: response status and
body, the idempotency table afterwards, the business state afterwards,
and whether the wrapped handler actually ran (instrumentation used only
to state non-re-execution). -/
structure InterceptOutcome (σ : Type) where
  statusCode : Nat
  body : String
  keys : List IdemRecord
  state : σ
  executed : Bool
deriving Repr

/-- `IdempotencyInterceptor.intercept`, sequential semantics.  The
wrapped controller handler is abstracted as a function from business
state to (new state, status code, response body).  Steps, in source
order: skip everything for non-POST/PUT/PATCH methods; skip dedup when
no `Idempotency-Key` header is present; reject keys shorter than 16 or
longer than 64 characters with a ConflictException; replay an unexpired
cached record verbatim without executing; delete an expired record and
fall through; otherwise execute the handler and store the record
(`id := key`, endpoint/method recorded, 24h expiry) — a duplicate-key
insert failure is swallowed, modelled by leaving the table unchanged
when the key is already present. -/
def intercept {σ : Type} (req : HttpRequest) (now : Nat)
    (handler : σ → σ × Nat × String) (keys : List IdemRecord) (s : σ) :
    Except ApiError (InterceptOutcome σ) :=
  if !(["POST", "PUT", "PATCH"].contains req.method) then
    let (s1, st, body) := handler s
    .ok { statusCode := st, body, keys, state := s1, executed := true }
  else
    match req.idempotencyKey with
    | none =>
      let (s1, st, body) := handler s
      .ok { statusCode := st, body, keys, state := s1, executed := true }
    | some key =>
      if key.length < 16 || key.length > 64 then
        .error (.conflict "Idempotency-Key must be between 16 and 64 characters")
      else
        let afterLookup : List IdemRecord × Option IdemRecord :=
          match findRecord keys key with
          | some existing =>
            if existing.expiresAt > now then (keys, some existing)
            else (keys.filter (fun r => r.id != key), none)
          | none => (keys, none)
        match afterLookup with
        | (_, some existing) =>
          .ok { statusCode := existing.statusCode, body := existing.response
                keys, state := s, executed := false }
        | (keys1, none) =>
          let (s1, st, body) := handler s
          let newRecord : IdemRecord :=
            { id := key
              userId := req.userId
              endpoint := req.path
              method := req.method
              statusCode := st
              response := body
              expiresAt := now + TTL_HOURS }
          let keys2 :=
            if keys1.any (fun r => r.id == key) then keys1
            else keys1 ++ [newRecord]
          .ok { statusCode := st, body, keys := keys2, state := s1, executed := true }

end Idempotency

end Warehouse

/-!
## Fixtures and spec-modelled comparison definitions

Concrete stores, requests and handlers used by the closed theorems
below, plus definitions written from the specification's wording for
refinement comparisons.
-/

namespace Warehouse

/-- Modelled from the spec (§4.6, claim C8's wording): configuration
match with a HALF-OPEN `[minWeight, maxWeight)` range, `maxWeight` null
meaning unbounded — for comparison with the source's `feeMatches`,
whose Prisma filter uses `maxWeight: { gte: weightKg }`. -/
def feeMatchesHalfOpen (weightKg : ℚ) (c : FeeConfig) : Bool :=
  c.isActive && decide (c.minWeight ≤ weightKg) &&
    (match c.maxWeight with
     | none => true
     | some mw => decide (weightKg < mw))

/-- Modelled from the spec: the fee calculation exactly as claim C8
words it — half-open range, highest-`minWeight` preference, 50/20
defaults, weight rounded up — differing from the source's
`calculateFee` only in the range's upper bound. -/
def calculateFeeHalfOpen (cfgs : List FeeConfig) (weightKg : ℚ) :
    DeliveriesService.FeeBreakdown :=
  let cfg := (cfgs.filter (feeMatchesHalfOpen weightKg)).foldl
    DeliveriesService.keepHigherMin none
  let baseFee := (cfg.map FeeConfig.baseFee).getD 50
  let perKgRate := (cfg.map FeeConfig.perKgRate).getD 20
  let roundedWeight : ℤ := ⌈weightKg⌉
  let weightFee := (roundedWeight : ℚ) * perKgRate
  { baseFee, weightFee, totalFee := baseFee + weightFee }

/-- An active configuration covering weights 0–5 kg with zero fees. -/
def cfgBoundary : FeeConfig :=
  { isActive := true, minWeight := 0, maxWeight := some 5, baseFee := 0, perKgRate := 0 }

/-- A mutating request to the deliveries endpoint with a 16-character
idempotency key. -/
def reqDeliveriesPost : Idempotency.HttpRequest :=
  { method := "POST", path := "/api/deliveries"
    idempotencyKey := some "0123456789abcdef", userId := some 2 }

/-- The same method and key sent to a different endpoint. -/
def reqIntakePost : Idempotency.HttpRequest :=
  { reqDeliveriesPost with path := "/api/parcels/intake" }

/-- A DELETE request carrying an invalid 3-character key. -/
def reqSoftDeleteHttp : Idempotency.HttpRequest :=
  { method := "DELETE", path := "/api/parcels/10"
    idempotencyKey := some "abc", userId := some 1 }

/-- A toy wrapped handler: bumps a counter and answers 201. -/
def handlerA : Nat → Nat × Nat × String := fun n => (n + 1, 201, "delivery-created")

/-- The record the first `reqDeliveriesPost` call stores at time 0. -/
def recA : IdemRecord :=
  { id := "0123456789abcdef", userId := some 2, endpoint := "/api/deliveries"
    method := "POST", statusCode := 201, response := "delivery-created"
    expiresAt := 24 }



/-- A warehouse staff member (actor of the concrete stores below). -/
def staffUser : User :=
  { id := 1, memberCode := "PHW-STAFF1", isActive := true, isDeleted := false }

/-- An active registered owner. -/
def ownerUser : User :=
  { id := 2, memberCode := "PHW-OWNER2", isActive := true, isDeleted := false }

/-- An orphan parcel: no owner, exception-locked, just arrived. -/
def orphanParcel : Parcel :=
  { id := 10, trackingNumber := "TRK-0001", memberCode := "PHW-NOBODY", weight := 1,
    state := .ARRIVED, ownerId := none, registeredById := 1, hasException := true }

/-- The OPEN invalid-member-code exception intake attached to the orphan. -/
def orphanExc : Exc :=
  { id := 20, parcelId := 10, type := .INVALID_MEMBER_CODE, status := .OPEN,
    description := "Member code PHW-NOBODY does not match any registered user",
    createdById := 1 }

/-- Store holding the orphan parcel with its single OPEN exception. -/
def dbOrphan : DB :=
  { nextId := 100, users := [staffUser], parcels := [orphanParcel],
    exceptions := [orphanExc], history := [], deliveries := [], audits := [],
    feeConfigs := [] }

/-- An exception-locked parcel already in DELIVERY_REQUESTED. -/
def lockedDRParcel : Parcel :=
  { id := 10, trackingNumber := "TRK-0001", memberCode := "PHW-OWNER2", weight := 1,
    state := .DELIVERY_REQUESTED, ownerId := some 2, registeredById := 1,
    hasException := true }

/-- Its delivery row, payment already confirmed. -/
def confirmedDelivery : Delivery :=
  { id := 30, parcelId := 10, recipientId := 2, deliveryStreet := "1 Rizal St",
    deliveryCity := "Manila", deliveryProvince := "NCR", deliveryZipCode := "1000",
    weightKg := 1, baseFee := 50, weightFee := 20, totalFee := 70,
    paymentStatus := .CONFIRMED, paymentConfirmedAt := some 1,
    paymentConfirmedById := some 1 }

/-- Store with the locked DELIVERY_REQUESTED parcel, an OPEN damage
exception on it, and the payment-confirmed delivery. -/
def dbLockedDR : DB :=
  { nextId := 100, users := [staffUser, ownerUser], parcels := [lockedDRParcel],
    exceptions := [{ id := 21, parcelId := 10, type := .DAMAGED_PARCEL,
                     status := .OPEN, description := "Visible damage on one corner",
                     createdById := 1 }],
    history := [], deliveries := [confirmedDelivery], audits := [], feeConfigs := [] }

/-- An ordinary unlocked parcel in ARRIVED. -/
def arrivedParcel : Parcel :=
  { id := 10, trackingNumber := "TRK-0001", memberCode := "PHW-OWNER2", weight := 1,
    state := .ARRIVED, ownerId := some 2, registeredById := 1, hasException := false }

/-- Store with the unlocked ARRIVED parcel. -/
def dbArrived : DB :=
  { nextId := 100, users := [staffUser, ownerUser], parcels := [arrivedParcel],
    exceptions := [], history := [], deliveries := [], audits := [], feeConfigs := [] }

/-- An unlocked parcel already DELIVERED (terminal). -/
def deliveredParcel : Parcel :=
  { id := 10, trackingNumber := "TRK-0001", memberCode := "PHW-OWNER2", weight := 1,
    state := .DELIVERED, ownerId := some 2, registeredById := 1, hasException := false }

/-- Store with the DELIVERED parcel. -/
def dbDelivered : DB :=
  { nextId := 100, users := [staffUser, ownerUser], parcels := [deliveredParcel],
    exceptions := [], history := [], deliveries := [], audits := [], feeConfigs := [] }

/-- A locked parcel carrying two OPEN exceptions. -/
def twoExcParcel : Parcel :=
  { id := 10, trackingNumber := "TRK-0001", memberCode := "PHW-OWNER2", weight := 1,
    state := .ARRIVED, ownerId := some 2, registeredById := 1, hasException := true }

/-- First of the two OPEN exceptions. -/
def twoExcA : Exc :=
  { id := 20, parcelId := 10, type := .DAMAGED_PARCEL, status := .OPEN,
    description := "Visible damage on one corner", createdById := 1 }

/-- Second OPEN exception on the same parcel. -/
def twoExcB : Exc :=
  { id := 21, parcelId := 10, type := .ILLEGIBLE_LABEL, status := .OPEN,
    description := "Label is hard to read", createdById := 1 }

/-- Store with one parcel locked under two OPEN exceptions. -/
def dbTwoExc : DB :=
  { nextId := 100, users := [staffUser, ownerUser], parcels := [twoExcParcel],
    exceptions := [twoExcA, twoExcB], history := [], deliveries := [], audits := [],
    feeConfigs := [] }

/-- Intake request whose member code matches no registered user. -/
def orphanIntakeDto : ParcelsService.IntakeDto :=
  { trackingNumber := "TRK-0002", memberCode := "PHW-GHOST9", weight := 2 }


end Warehouse

/-!
## Theorems

One theorem per specification claim, preceded by shared helper lemmas.
Comparison definitions written from the specification's wording (for
refinement checks) are marked `Modelled from the spec`.
-/

namespace Warehouse

/-- `keepHigherMin` always returns a configuration. -/
theorem keepHigherMin_ne_none (acc : Option FeeConfig) (c : FeeConfig) :
    DeliveriesService.keepHigherMin acc c ≠ none := by
  cases acc with
  | none => simp [DeliveriesService.keepHigherMin]
  | some b =>
    simp only [DeliveriesService.keepHigherMin]
    split <;> simp

/-- A fold of `keepHigherMin` yields `none` only from `none` over `[]`. -/
theorem keepHigherMin_none :
    ∀ (l : List FeeConfig) (acc : Option FeeConfig),
      l.foldl DeliveriesService.keepHigherMin acc = none → acc = none ∧ l = [] := by
  intro l
  induction l with
  | nil => intro acc h; exact ⟨h, rfl⟩
  | cons a t ih =>
    intro acc h
    obtain ⟨hmid, -⟩ := ih _ h
    exact absurd hmid (keepHigherMin_ne_none acc a)

/-- The fold result of `keepHigherMin` comes from the accumulator or the
list. -/
theorem keepHigherMin_mem :
    ∀ (l : List FeeConfig) (acc : Option FeeConfig) (c : FeeConfig),
      l.foldl DeliveriesService.keepHigherMin acc = some c → acc = some c ∨ c ∈ l := by
  intro l
  induction l with
  | nil => intro acc c h; exact Or.inl h
  | cons a t ih =>
    intro acc c h
    rcases ih _ c h with h' | h'
    · cases acc with
      | none =>
        simp only [DeliveriesService.keepHigherMin, Option.some.injEq] at h'
        exact Or.inr (by simp [h'])
      | some b =>
        simp only [DeliveriesService.keepHigherMin] at h'
        split at h'
        · simp only [Option.some.injEq] at h'
          exact Or.inr (by simp [h'])
        · exact Or.inl h'
    · exact Or.inr (List.mem_cons_of_mem a h')

/-- The fold result of `keepHigherMin` dominates every list element and
the accumulator in `minWeight`. -/
theorem keepHigherMin_le :
    ∀ (l : List FeeConfig) (acc : Option FeeConfig) (c : FeeConfig),
      l.foldl DeliveriesService.keepHigherMin acc = some c →
        (∀ x ∈ l, x.minWeight ≤ c.minWeight) ∧
          (∀ b, acc = some b → b.minWeight ≤ c.minWeight) := by
  intro l
  induction l with
  | nil =>
    intro acc c h
    refine ⟨by simp, fun b hb => ?_⟩
    rw [hb] at h
    simp only [List.foldl_nil, Option.some.injEq] at h
    rw [h]
  | cons a t ih =>
    intro acc c h
    obtain ⟨ht, hacc⟩ := ih (DeliveriesService.keepHigherMin acc a) c h
    cases hmid : DeliveriesService.keepHigherMin acc a with
    | none => exact absurd hmid (keepHigherMin_ne_none acc a)
    | some mid =>
      have hmidc : mid.minWeight ≤ c.minWeight := hacc mid hmid
      have hstep : a.minWeight ≤ mid.minWeight ∧
          ∀ b, acc = some b → b.minWeight ≤ mid.minWeight := by
        cases acc with
        | none =>
          simp only [DeliveriesService.keepHigherMin, Option.some.injEq] at hmid
          rw [← hmid]
          exact ⟨le_refl _, by simp⟩
        | some b0 =>
          simp only [DeliveriesService.keepHigherMin] at hmid
          split at hmid <;> simp only [Option.some.injEq] at hmid <;> rw [← hmid]
          · next hgt =>
            refine ⟨le_refl _, fun b hb => ?_⟩
            simp only [Option.some.injEq] at hb
            rw [← hb]
            exact le_of_lt hgt
          · next hgt =>
            refine ⟨le_of_not_lt hgt, fun b hb => ?_⟩
            simp only [Option.some.injEq] at hb
            rw [← hb]
      refine ⟨fun x hx => ?_, fun b hb => le_trans (hstep.2 b hb) hmidc⟩
      rcases List.mem_cons.mp hx with rfl | hx'
      · exact le_trans hstep.1 hmidc
      · exact ht x hx'

/-- C8 counterexample: at weight 5 the source's `calculateFee` still
selects the configuration whose `maxWeight` equals 5 — its Prisma
filter is `maxWeight: { gte: weightKg }`, a closed upper bound — whereas
the claim's half-open `[minWeight, maxWeight)` rule falls back to the
50/20 default; the two computations disagree at this input. -/
theorem calculateFee_includes_upper_bound :
    DeliveriesService.calculateFee [cfgBoundary] 5
        = { baseFee := 0, weightFee := 0, totalFee := 0 }
      ∧ calculateFeeHalfOpen [cfgBoundary] 5
        = { baseFee := 50, weightFee := 100, totalFee := 150 } := by
  have h5 : (⌈(5:ℚ)⌉ : ℤ) = 5 := by norm_num
  constructor
  · simp [DeliveriesService.calculateFee, DeliveriesService.selectFeeConfig,
      DeliveriesService.feeMatches, cfgBoundary, DeliveriesService.keepHigherMin,
      List.filter, h5]
  · simp [calculateFeeHalfOpen, feeMatchesHalfOpen, cfgBoundary,
      DeliveriesService.keepHigherMin, List.filter, h5]
    norm_num

/-- C8 (amended): `calculateFee` selects the active fee configuration
whose CLOSED range `[minWeight, maxWeight]` contains the weight
(`maxWeight` null meaning unbounded), preferring the configuration with
the highest `minWeight` among matches, falls back to base 50 / per-kg 20
when none match, and returns `totalFee = baseFee + ⌈w⌉ × perKgRate`;
weight 3.5 with the default 50/20 yields weightFee 80 and totalFee 130. -/
theorem calculateFee_selection_and_formula (cfgs : List FeeConfig) (w : ℚ) :
    (∀ c, DeliveriesService.selectFeeConfig cfgs w = some c →
        c ∈ cfgs ∧ DeliveriesService.feeMatches w c = true ∧
          ∀ c' ∈ cfgs, DeliveriesService.feeMatches w c' = true →
            c'.minWeight ≤ c.minWeight)
  ∧ (DeliveriesService.selectFeeConfig cfgs w = none →
        ∀ c ∈ cfgs, DeliveriesService.feeMatches w c = false)
  ∧ DeliveriesService.calculateFee cfgs w =
      { baseFee := ((DeliveriesService.selectFeeConfig cfgs w).map FeeConfig.baseFee).getD 50
        weightFee := (⌈w⌉ : ℚ) *
          ((DeliveriesService.selectFeeConfig cfgs w).map FeeConfig.perKgRate).getD 20
        totalFee := ((DeliveriesService.selectFeeConfig cfgs w).map FeeConfig.baseFee).getD 50
          + (⌈w⌉ : ℚ) *
            ((DeliveriesService.selectFeeConfig cfgs w).map FeeConfig.perKgRate).getD 20 }
  ∧ DeliveriesService.calculateFee [] (7/2)
      = { baseFee := 50, weightFee := 80, totalFee := 130 } := by
  refine ⟨?_, ?_, rfl, ?_⟩
  · intro c hc
    have hmem := keepHigherMin_mem _ _ _ hc
    simp only [reduceCtorEq, false_or] at hmem
    have hmem' := List.mem_filter.mp hmem
    refine ⟨hmem'.1, hmem'.2, fun c' hc' hm' => ?_⟩
    exact (keepHigherMin_le _ _ _ hc).1 c' (List.mem_filter.mpr ⟨hc', hm'⟩)
  · intro hnone c hc
    obtain ⟨-, hfil⟩ := keepHigherMin_none _ _ hnone
    by_contra hmatch
    have : c ∈ cfgs.filter (DeliveriesService.feeMatches w) :=
      List.mem_filter.mpr ⟨hc, by simpa using hmatch⟩
    rw [hfil] at this
    simp at this
  · have h : (⌈(7/2:ℚ)⌉ : ℤ) = 4 := by norm_num [Int.ceil_eq_iff]
    simp [DeliveriesService.calculateFee, DeliveriesService.selectFeeConfig, h]
    norm_num

/-- Witness for the C8 amended theorem at `[cfgBoundary]`, weight 5: the
selected configuration is `cfgBoundary`, which matches and carries the
maximal `minWeight` among matches. -/
theorem calculateFee_selection_and_formula_witness :
    cfgBoundary ∈ [cfgBoundary] ∧ DeliveriesService.feeMatches 5 cfgBoundary = true ∧
      ∀ c' ∈ [cfgBoundary], DeliveriesService.feeMatches 5 c' = true →
        c'.minWeight ≤ cfgBoundary.minWeight :=
  (calculateFee_selection_and_formula [cfgBoundary] 5).1 cfgBoundary (by decide)

end Warehouse

/-!
### Idempotency Cache theorems (claims C5, C9, C10)
-/

namespace Warehouse

/-- Replay: an unexpired record found under the key answers the request. -/
theorem intercept_replay_of_found {σ : Type} (req : Idempotency.HttpRequest)
    (now : Nat) (handler : σ → σ × Nat × String) (keys : List IdemRecord) (s : σ)
    (key : String) (rec : IdemRecord)
    (hm : (["POST", "PUT", "PATCH"].contains req.method) = true)
    (hk : req.idempotencyKey = some key)
    (hlo : 16 ≤ key.length) (hhi : key.length ≤ 64)
    (hfound : Idempotency.findRecord keys key = some rec)
    (hfresh : now < rec.expiresAt) :
    Idempotency.intercept req now handler keys s
      = .ok { statusCode := rec.statusCode, body := rec.response
              keys := keys, state := s, executed := false } := by
  unfold Idempotency.intercept
  rw [hm, hk]
  simp only [Bool.not_true, Bool.false_eq_true, if_false]
  rw [hfound]
  have h1 : ¬ key.length < 16 := Nat.not_lt.mpr hlo
  have h2 : ¬ key.length > 64 := Nat.not_lt.mpr hhi
  simp [h1, h2, hfresh]


theorem intercept_exec_of_absent {σ : Type} (req : Idempotency.HttpRequest)
    (now : Nat) (handler : σ → σ × Nat × String) (keys : List IdemRecord) (s : σ)
    (key : String) (s1 : σ) (st : Nat) (body : String)
    (hm : (["POST", "PUT", "PATCH"].contains req.method) = true)
    (hk : req.idempotencyKey = some key)
    (hlo : 16 ≤ key.length) (hhi : key.length ≤ 64)
    (hnone : Idempotency.findRecord keys key = none)
    (hh : handler s = (s1, st, body)) :
    Idempotency.intercept req now handler keys s
      = .ok { statusCode := st, body := body
              keys := keys ++
                [{ id := key, userId := req.userId, endpoint := req.path
                   method := req.method, statusCode := st, response := body
                   expiresAt := now + Idempotency.TTL_HOURS }]
              state := s1, executed := true } := by
  have hany : keys.any (fun r => r.id == key) = false := by
    rw [List.any_eq_false]
    intro r hr
    have := List.find?_eq_none.mp hnone r hr
    simpa using this
  unfold Idempotency.intercept
  rw [hm, hk]
  simp only [Bool.not_true, Bool.false_eq_true, if_false]
  rw [hnone]
  have h1 : ¬ key.length < 16 := Nat.not_lt.mpr hlo
  have h2 : ¬ key.length > 64 := Nat.not_lt.mpr hhi
  simp [h1, h2, hh, hany]

/-- Appending a fresh record makes it findable when the key was absent. -/
theorem findRecord_append_self (keys : List IdemRecord) (rec : IdemRecord)
    (hnone : Idempotency.findRecord keys rec.id = none) :
    Idempotency.findRecord (keys ++ [rec]) rec.id = some rec := by
  unfold Idempotency.findRecord at hnone ⊢
  rw [List.find?_append, hnone]
  simp

/-- C5: when a mutating request carrying idempotency key K completes
successfully (first execution, response cached), re-issuing the same
request with key K within 24 hours does not execute the wrapped
operation again: it returns the cached status code and body verbatim and
leaves business state and cache untouched, so the underlying side effect
occurs exactly once across the two requests. -/
theorem idempotent_replay_within_ttl {σ : Type} (req : Idempotency.HttpRequest)
    (now now2 : Nat) (handler : σ → σ × Nat × String) (keys : List IdemRecord)
    (s : σ) (s1 : σ) (st : Nat) (body : String) (key : String)
    (hm : (["POST", "PUT", "PATCH"].contains req.method) = true)
    (hk : req.idempotencyKey = some key)
    (hlo : 16 ≤ key.length) (hhi : key.length ≤ 64)
    (hnone : Idempotency.findRecord keys key = none)
    (hh : handler s = (s1, st, body))
    (hfresh : now2 < now + Idempotency.TTL_HOURS) :
    Idempotency.intercept req now handler keys s
        = .ok { statusCode := st, body := body
                keys := keys ++
                  [{ id := key, userId := req.userId, endpoint := req.path
                     method := req.method, statusCode := st, response := body
                     expiresAt := now + Idempotency.TTL_HOURS }]
                state := s1, executed := true }
      ∧ Idempotency.intercept req now2 handler
          (keys ++
            [{ id := key, userId := req.userId, endpoint := req.path
               method := req.method, statusCode := st, response := body
               expiresAt := now + Idempotency.TTL_HOURS }]) s1
        = .ok { statusCode := st, body := body
                keys := keys ++
                  [{ id := key, userId := req.userId, endpoint := req.path
                     method := req.method, statusCode := st, response := body
                     expiresAt := now + Idempotency.TTL_HOURS }]
                state := s1, executed := false } := by
  constructor
  · exact intercept_exec_of_absent req now handler keys s key s1 st body
      hm hk hlo hhi hnone hh
  · exact intercept_replay_of_found req now2 handler _ s1 key
      { id := key, userId := req.userId, endpoint := req.path
        method := req.method, statusCode := st, response := body
        expiresAt := now + Idempotency.TTL_HOURS }
      hm hk hlo hhi (findRecord_append_self keys _ hnone) hfresh

theorem idempotent_replay_within_ttl_witness :
    Idempotency.intercept reqDeliveriesPost 0 handlerA [] 0
        = .ok { statusCode := 201, body := "delivery-created"
                keys := [recA], state := 1, executed := true }
      ∧ Idempotency.intercept reqDeliveriesPost 23 handlerA [recA] 1
        = .ok { statusCode := 201, body := "delivery-created"
                keys := [recA], state := 1, executed := false } :=
  idempotent_replay_within_ttl reqDeliveriesPost 0 23 handlerA [] 0 1 201
    "delivery-created" "0123456789abcdef" rfl rfl (by decide) (by decide) rfl rfl
    (by decide)

/-- C9 (amended): stored idempotency records carry endpoint+method, but
the cache lookup is by the caller-supplied key alone — an unexpired
record stored under key K answers any later mutating request bearing K,
even one whose endpoint or method differs from the record's, with the
originally cached status and body. -/
theorem lookup_by_key_alone {σ : Type} (req : Idempotency.HttpRequest)
    (now : Nat) (handler : σ → σ × Nat × String) (keys : List IdemRecord) (s : σ)
    (key : String) (rec : IdemRecord)
    (hm : (["POST", "PUT", "PATCH"].contains req.method) = true)
    (hk : req.idempotencyKey = some key)
    (hlo : 16 ≤ key.length) (hhi : key.length ≤ 64)
    (hfound : Idempotency.findRecord keys key = some rec)
    (hfresh : now < rec.expiresAt)
    (_hcross : rec.endpoint ≠ req.path ∨ rec.method ≠ req.method) :
    Idempotency.intercept req now handler keys s
      = .ok { statusCode := rec.statusCode, body := rec.response
              keys := keys, state := s, executed := false } :=
  intercept_replay_of_found req now handler keys s key rec hm hk hlo hhi hfound hfresh

theorem lookup_by_key_alone_witness :
    recA.endpoint ≠ reqIntakePost.path ∧
    Idempotency.intercept reqIntakePost 1 handlerA [recA] 0
      = .ok { statusCode := 201, body := "delivery-created"
              keys := [recA], state := 0, executed := false } :=
  ⟨by decide,
   lookup_by_key_alone reqIntakePost 1 handlerA [recA] 0 "0123456789abcdef" recA
     rfl rfl (by decide) (by decide) rfl (by decide) (Or.inl (by decide))⟩

/-- C9 counterexample: a POST to /api/deliveries stores the response
under key K; a later POST to the different endpoint /api/parcels/intake
bearing the same K is answered with the /api/deliveries cached response
(no execution) — the claim said this can never happen. -/
theorem same_key_cross_endpoint_replay :
    Idempotency.intercept reqDeliveriesPost 0 handlerA [] 0
        = .ok { statusCode := 201, body := "delivery-created"
                keys := [recA], state := 1, executed := true }
      ∧ reqIntakePost.path ≠ recA.endpoint
      ∧ Idempotency.intercept reqIntakePost 1 handlerA [recA] 0
        = .ok { statusCode := 201, body := "delivery-created"
                keys := [recA], state := 0, executed := false } :=
  ⟨rfl, by decide, rfl⟩

/-- C10: the interceptor applies only to POST, PUT and PATCH requests:
for every other method (e.g. the DELETE soft-delete route) the wrapped
handler executes with no key-length validation, no cache lookup and no
response caching, even when an Idempotency-Key header is supplied. -/
theorem non_mutating_methods_bypass_idempotency {σ : Type}
    (req : Idempotency.HttpRequest) (now : Nat)
    (handler : σ → σ × Nat × String) (keys : List IdemRecord) (s : σ)
    (s1 : σ) (st : Nat) (body : String)
    (hm : (["POST", "PUT", "PATCH"].contains req.method) = false)
    (hh : handler s = (s1, st, body)) :
    Idempotency.intercept req now handler keys s
      = .ok { statusCode := st, body := body, keys := keys
              state := s1, executed := true } := by
  unfold Idempotency.intercept
  rw [hm]
  simp [hh]

theorem non_mutating_methods_bypass_idempotency_witness :
    Idempotency.intercept reqSoftDeleteHttp 0 handlerA [recA] 5
      = .ok { statusCode := 201, body := "delivery-created"
              keys := [recA], state := 6, executed := true } :=
  non_mutating_methods_bypass_idempotency reqSoftDeleteHttp 0 handlerA [recA] 5
    6 201 "delivery-created" (by decide) rfl

end Warehouse

/-!
### Keyed-update lemmas and Exception Lifecycle theorems (claim C7)
-/

namespace Warehouse

/-- `find?` through a keyed in-place map: when the update preserves
the key, the row found is the updated row. -/
theorem find?_map_keyed {α : Type} (key : α → Bool) (f : α → α)
    (hf : ∀ x, key x = true → key (f x) = true) :
    ∀ l : List α, (l.map (fun x => if key x then f x else x)).find? key
      = (l.find? key).map f := by
  intro l
  induction l with
  | nil => simp
  | cons a t ih =>
    by_cases h : key a = true
    · rw [List.map_cons]
      simp only [h, if_true]
      rw [List.find?_cons_of_pos _ (hf a h), List.find?_cons_of_pos _ h]
      simp
    · have h' : key a = false := by simpa using h
      rw [List.map_cons]
      simp only [h', Bool.false_eq_true, if_false]
      rw [List.find?_cons_of_neg _ (by simp [h']), List.find?_cons_of_neg _ (by simp [h'])]
      exact ih

/-- `filter` through a keyed in-place map: rows that fail the filter
both before and after the update leave the filtered list unchanged. -/
theorem filter_map_keyed {α : Type} (key q : α → Bool) (f : α → α)
    (h1 : ∀ x, key x = true → q x = false)
    (h2 : ∀ x, key x = true → q (f x) = false) :
    ∀ l : List α, (l.map (fun x => if key x then f x else x)).filter q = l.filter q := by
  intro l
  induction l with
  | nil => simp
  | cons a t ih =>
    by_cases h : key a = true
    · simp [List.filter_cons, h, h1 a h, h2 a h, ih]
    · have h' : key a = false := by simpa using h
      simp [List.filter_cons, h', ih]

/-- `findParcel` after `updateParcel` returns the updated row when the
update preserves the id. -/
theorem findParcel_updateParcel (db : DB) (pid : Nat) (f : Parcel → Parcel)
    (hf : ∀ p, (p.id == pid) = true → ((f p).id == pid) = true) :
    (db.updateParcel pid f).findParcel pid = (db.findParcel pid).map f := by
  unfold DB.findParcel DB.updateParcel
  exact find?_map_keyed _ f hf db.parcels

/-- `findExc` after `updateExc` returns the updated row when the update
preserves the id. -/
theorem findExc_updateExc (db : DB) (excId : Nat) (f : Exc → Exc)
    (hf : ∀ e, (e.id == excId) = true → ((f e).id == excId) = true) :
    (db.updateExc excId f).findExc excId = (db.findExc excId).map f := by
  unfold DB.findExc DB.updateExc
  exact find?_map_keyed _ f hf db.exceptions

/-- The count of other open exceptions ignores updates to the excluded
exception row (provided the update keeps its id). -/
theorem countOtherOpen_updateExc (db : DB) (excId : Nat) (f : Exc → Exc)
    (hf : ∀ e, (e.id == excId) = true → ((f e).id == excId) = true)
    (pid : Nat) :
    ExceptionsService.countOtherOpen (db.updateExc excId f) pid excId
      = ExceptionsService.countOtherOpen db pid excId := by
  unfold ExceptionsService.countOtherOpen DB.updateExc
  congr 1
  refine filter_map_keyed (fun e => e.id == excId) _ f ?_ ?_ db.exceptions
  · intro x hx
    simp [bne, hx]
  · intro x hx
    simp [bne, hf x hx]

/-- C7: `resolve` (and `cancel`) set the exception's terminal status —
RESOLVED with resolution text, resolved-at and handler, or CANCELLED
with handler — and, in the same transaction, clear the parcel's
exception-lock flag if and only if zero OPEN or IN_PROGRESS exceptions
remain for that parcel (`countOtherOpen db` counts them: the updated
exception itself is terminal afterwards, so these are exactly the ones
remaining); when other open exceptions remain, the flag is untouched. -/
theorem resolve_cancel_clear_lock_iff_none_open
    (db : DB) (excId : Nat) (exc : Exc) (p : Parcel)
    (res : String) (adminId now : Nat)
    (he : db.findExc excId = some exc)
    (hs1 : exc.status ≠ .RESOLVED) (hs2 : exc.status ≠ .CANCELLED)
    (hp : db.findParcel exc.parcelId = some p) :
    (∃ db2,
      ExceptionsService.resolve excId res adminId now true db
        = (.ok { exc with
                   status := .RESOLVED, resolution := some res,
                   resolvedAt := some now, handledById := some adminId }, db2)
      ∧ db2.findExc excId
          = some { exc with
                     status := .RESOLVED, resolution := some res,
                     resolvedAt := some now, handledById := some adminId }
      ∧ db2.findParcel exc.parcelId
          = some (if ExceptionsService.countOtherOpen db exc.parcelId excId = 0
                  then { p with hasException := false } else p))
  ∧ (∃ db2,
      ExceptionsService.cancel excId adminId true db
        = (.ok { exc with status := .CANCELLED, handledById := some adminId }, db2)
      ∧ db2.findExc excId
          = some { exc with status := .CANCELLED, handledById := some adminId }
      ∧ db2.findParcel exc.parcelId
          = some (if ExceptionsService.countOtherOpen db exc.parcelId excId = 0
                  then { p with hasException := false } else p)) := by
  have hid : (exc.id == excId) = true := by
    have h := he
    unfold DB.findExc at h
    have h2 := List.find?_some h
    simpa using h2
  have hup : ∀ q : Parcel, (q.id == exc.parcelId) = true →
      ((({ q with hasException := false } : Parcel)).id == exc.parcelId) = true :=
    fun q hq => hq
  have heL := he
  unfold DB.findExc at heL
  have hpL := hp
  unfold DB.findParcel at hpL
  constructor
  · have hfkeep : ∀ e : Exc, (e.id == excId) = true →
        ((({ exc with
               status := ExceptionStatus.RESOLVED, resolution := some res,
               resolvedAt := some now, handledById := some adminId } : Exc)).id == excId) = true :=
      fun _ _ => hid
    have hco := countOtherOpen_updateExc db excId
      (fun _ => { exc with
                    status := ExceptionStatus.RESOLVED, resolution := some res,
                    resolvedAt := some now, handledById := some adminId }) hfkeep exc.parcelId
    unfold ExceptionsService.resolve
    rw [he]
    simp only [hs1, hs2, if_false, reduceIte, AuditService.log, if_true]
    rw [hco]
    by_cases hzero : ExceptionsService.countOtherOpen db exc.parcelId excId = 0
    · rw [if_pos hzero]
      refine ⟨_, rfl, ?_, ?_⟩
      · simp only [DB.findExc, DB.updateParcel, DB.updateExc]
        rw [find?_map_keyed _ _ hfkeep, heL]
        rfl
      · rw [if_pos hzero]
        simp only [DB.findParcel, DB.updateParcel, DB.updateExc]
        rw [find?_map_keyed _ _ hup, hpL]
        rfl
    · rw [if_neg hzero]
      refine ⟨_, rfl, ?_, ?_⟩
      · simp only [DB.findExc, DB.updateParcel, DB.updateExc]
        rw [find?_map_keyed _ _ hfkeep, heL]
        rfl
      · rw [if_neg hzero]
        simp only [DB.findParcel, DB.updateParcel, DB.updateExc]
        exact hpL
  · have hfkeep : ∀ e : Exc, (e.id == excId) = true →
        ((({ exc with
               status := ExceptionStatus.CANCELLED,
               handledById := some adminId } : Exc)).id == excId) = true :=
      fun _ _ => hid
    have hco := countOtherOpen_updateExc db excId
      (fun _ => { exc with
                    status := ExceptionStatus.CANCELLED,
                    handledById := some adminId }) hfkeep exc.parcelId
    unfold ExceptionsService.cancel
    rw [he]
    simp only [hs1, hs2, if_false, reduceIte, AuditService.log, if_true]
    rw [hco]
    by_cases hzero : ExceptionsService.countOtherOpen db exc.parcelId excId = 0
    · rw [if_pos hzero]
      refine ⟨_, rfl, ?_, ?_⟩
      · simp only [DB.findExc, DB.updateParcel, DB.updateExc]
        rw [find?_map_keyed _ _ hfkeep, heL]
        rfl
      · rw [if_pos hzero]
        simp only [DB.findParcel, DB.updateParcel, DB.updateExc]
        rw [find?_map_keyed _ _ hup, hpL]
        rfl
    · rw [if_neg hzero]
      refine ⟨_, rfl, ?_, ?_⟩
      · simp only [DB.findExc, DB.updateParcel, DB.updateExc]
        rw [find?_map_keyed _ _ hfkeep, heL]
        rfl
      · rw [if_neg hzero]
        simp only [DB.findParcel, DB.updateParcel, DB.updateExc]
        exact hpL

end Warehouse

namespace Warehouse

/-- Witness for C7 at `dbTwoExc`: resolving exception 20 while exception
21 is still OPEN succeeds, and — since one open exception remains — the
parcel stays locked (`countOtherOpen dbTwoExc 10 20 = 1 ≠ 0`, so the
`else` branch applies and the parcel row is returned unchanged, with
`hasException` still true). -/
theorem resolve_cancel_clear_lock_iff_none_open_witness :
    ∃ db2,
      ExceptionsService.resolve 20 "Replacement approved" 1 6 true dbTwoExc
        = (.ok { twoExcA with
                   status := .RESOLVED, resolution := some "Replacement approved",
                   resolvedAt := some 6, handledById := some 1 }, db2)
      ∧ db2.findParcel twoExcA.parcelId = some twoExcParcel
      ∧ twoExcParcel.hasException = true := by
  obtain ⟨⟨db2, h1, -, h3⟩, -⟩ :=
    resolve_cancel_clear_lock_iff_none_open dbTwoExc 20 twoExcA twoExcParcel
      "Replacement approved" 1 6 rfl (by decide) (by decide) rfl
  refine ⟨db2, h1, ?_, rfl⟩
  rw [h3, if_neg (by decide)]

end Warehouse

/-!
### Invariant and exception-lock theorems (claims C1, C2)
-/

namespace Warehouse

/-- C1: the orphan invariant fails in the code. `dbOrphan` holds an
orphan parcel (ownerId null, hasException true, as intake creates it)
with its single OPEN exception; resolving that exception succeeds and
clears `hasException` without any orphan check, leaving a parcel with
`ownerId = null` and `hasException = false` — the state both the claim
and the repository's own CHECK constraint
`Parcel_orphan_must_be_exception` declare impossible. -/
theorem resolve_orphan_leaves_unflagged_orphan :
    ((dbOrphan.findParcel 10).map (fun p => (p.ownerId, p.hasException)))
        = some (none, true)
  ∧ ((ExceptionsService.resolve 20 "Owner located offline" 1 5 true dbOrphan).1.toOption.isSome)
        = true
  ∧ (((ExceptionsService.resolve 20 "Owner located offline" 1 5 true dbOrphan).2.findParcel 10).map
        (fun p => (p.ownerId, p.hasException))) = some (none, false) :=
  ⟨rfl, rfl, rfl⟩

/-- C2 counterexample: `dispatch` never reads the exception-lock flag.
In `dbLockedDR` the parcel is exception-locked (`hasException = true`,
one OPEN exception) and in DELIVERY_REQUESTED with payment CONFIRMED;
`dispatch` — invoked by ordinary staff, no admin override exists on this
path — succeeds and moves the parcel to OUT_FOR_DELIVERY. -/
theorem dispatch_succeeds_on_locked_parcel :
    ((dbLockedDR.findParcel 10).map (fun p => (p.hasException, p.state)))
        = some (true, ParcelState.DELIVERY_REQUESTED)
  ∧ ((DeliveriesService.dispatch 30 1 7 true dbLockedDR).1.toOption.map
        (fun r => r.2.state)) = some ParcelState.OUT_FOR_DELIVERY
  ∧ (((DeliveriesService.dispatch 30 1 7 true dbLockedDR).2.findParcel 10).map
        Parcel.state) = some ParcelState.OUT_FOR_DELIVERY :=
  ⟨rfl, rfl, rfl⟩

end Warehouse

/-!
### Lock, audit-coupling and transition-rule theorems (claims C2, C3, C4)
-/

namespace Warehouse

/-- C2 (amended): while a parcel's exception-lock flag is set,
`updateState` (no admin-override parameter exists) and `requestDelivery`
are rejected and leave the store unchanged; `dispatch` and `complete`,
however, never consult the flag (see the counterexample) — the lock only
guards the TransitionState and RequestDelivery paths. -/
theorem exception_lock_blocks_transition_and_request
    (db : DB) (pid : Nat) (p : Parcel)
    (h : db.findParcel pid = some p)
    (hd : p.isDeleted = false) (he : p.hasException = true) :
    (∀ (ns : ParcelState) (notes : Option String) (uid now : Nat) (aok : Bool),
       ParcelsService.updateState pid ns notes uid now aok db
         = (.error (.forbidden "Cannot change state: parcel has unresolved exception"), db))
  ∧ (∀ (dto : DeliveriesService.RequestDeliveryDto), dto.parcelId = pid →
       ∀ (uid : Nat) (aok : Bool), ∃ err,
         DeliveriesService.requestDelivery dto uid aok db = (.error err, db)) := by
  constructor
  · intro ns notes uid now aok
    unfold ParcelsService.updateState
    rw [h]
    simp [hd, he]
  · intro dto hpid uid aok
    rw [← hpid] at h
    unfold DeliveriesService.requestDelivery
    rw [h]
    simp only [hd, Bool.false_eq_true, if_false, reduceIte]
    split
    · exact ⟨_, rfl⟩
    · split
      · exact ⟨_, rfl⟩
      · split
        · exact ⟨_, rfl⟩
        · simp [he]

/-- Witness for the C2 amended theorem at `dbLockedDR`: both the state
transition and the delivery request bounce off the locked parcel,
leaving the store untouched. -/
theorem exception_lock_blocks_transition_and_request_witness :
    ParcelsService.updateState 10 .OUT_FOR_DELIVERY none 1 7 true dbLockedDR
        = (.error (.forbidden "Cannot change state: parcel has unresolved exception"),
           dbLockedDR)
  ∧ ∃ err, DeliveriesService.requestDelivery
        { parcelId := 10, deliveryStreet := "1 Rizal St", deliveryCity := "Manila",
          deliveryProvince := "NCR", deliveryZipCode := "1000" } 2 true dbLockedDR
        = (.error err, dbLockedDR) := by
  obtain ⟨h1, h2⟩ :=
    exception_lock_blocks_transition_and_request dbLockedDR 10 lockedDRParcel rfl rfl rfl
  exact ⟨h1 .OUT_FOR_DELIVERY none 1 7 true, h2 _ rfl 2 true⟩

/-- C3 counterexample: in `dbArrived` the ARRIVED→STORED transition is
legal; with the audit insert failing (`auditOk = false`) the operation
throws, yet the parcel is already STORED and the history row already
appended — the transaction has committed before the audit write runs,
so "none of its mutations persist" is false. -/
theorem audit_failure_keeps_committed_mutations :
    (ParcelsService.updateState 10 .STORED none 1 7 false dbArrived).1
        = .error .auditFailure
  ∧ (((ParcelsService.updateState 10 .STORED none 1 7 false dbArrived).2.findParcel 10).map
        Parcel.state) = some ParcelState.STORED
  ∧ (ParcelsService.updateState 10 .STORED none 1 7 false dbArrived).2.history
        = dbArrived.history ++
          [{ parcelId := 10, fromState := some ParcelState.ARRIVED,
             toState := ParcelState.STORED, changedById := 1, notes := none }]
  ∧ (ParcelsService.updateState 10 .STORED none 1 7 false dbArrived).2.audits
        = dbArrived.audits :=
  ⟨rfl, rfl, rfl, rfl⟩

/-- C3 (amended): the audit-log append runs after the state-transition
transaction has committed; when the audit insert fails the whole call
surfaces the failure, but the parcel update and the state-history row
persist and only the audit entry is missing. -/
theorem audit_append_after_transaction
    (db : DB) (pid : Nat) (p : Parcel) (ns : ParcelState) (notes : Option String)
    (uid now : Nat)
    (h : db.findParcel pid = some p) (hd : p.isDeleted = false)
    (hx : p.hasException = false)
    (hn : (ParcelsService.STATE_TRANSITIONS p.state).contains ns = true) :
    ∃ db1,
      ParcelsService.updateState pid ns notes uid now false db
        = (.error .auditFailure, db1)
      ∧ db1.findParcel pid
          = some { p with
                     state := ns,
                     storedAt := if ns = .STORED then some now else p.storedAt }
      ∧ db1.history = db.history ++
          [{ parcelId := pid, fromState := some p.state, toState := ns,
             changedById := uid, notes := notes }]
      ∧ db1.audits = db.audits := by
  have hpid : (p.id == pid) = true := by
    have h2 := List.find?_some (by unfold DB.findParcel at h; exact h)
    simpa using h2
  have hkeep : ∀ q : Parcel, (q.id == pid) = true →
      ((({ p with
             state := ns,
             storedAt := if ns = .STORED then some now else p.storedAt } : Parcel)).id
          == pid) = true :=
    fun _ _ => hpid
  have hL := h
  unfold DB.findParcel at hL
  unfold ParcelsService.updateState
  simp only [h]
  rw [if_neg (by simp [hd]), if_neg (by simp [hx]), if_neg (by rw [hn]; simp)]
  simp only [AuditService.log, Bool.false_eq_true, if_false, reduceIte]
  refine ⟨_, rfl, ?_, rfl, rfl⟩
  simp only [DB.findParcel, DB.updateParcel]
  rw [find?_map_keyed _ _ hkeep, hL]
  rfl

/-- Witness for the C3 amended theorem at `dbArrived`: the failed-audit
ARRIVED→STORED call errors while the STORED parcel persists. -/
theorem audit_append_after_transaction_witness :
    ∃ db1,
      ParcelsService.updateState 10 .STORED none 1 7 false dbArrived
        = (.error .auditFailure, db1)
      ∧ db1.findParcel 10
          = some { arrivedParcel with state := .STORED, storedAt := some 7 }
      ∧ db1.audits = dbArrived.audits := by
  obtain ⟨db1, h1, h2, -, h4⟩ :=
    audit_append_after_transaction dbArrived 10 arrivedParcel .STORED none 1 7
      rfl rfl rfl rfl
  exact ⟨db1, h1, h2, h4⟩

/-- C4 counterexample: the Validator's admin-override allowlist accepts
DELIVERED→STORED (`isAdminOverride = true`), but `updateState` — which
has no admin-override input at all — rejects that very transition with
its own inline message, which names no expected next state; the store
is untouched. `updateState` therefore does not decide by the Validator's
rules. -/
theorem updateState_ignores_validator_override :
    (ParcelsService.updateState 10 .STORED none 1 7 true dbDelivered).1
        = .error (.badRequest "Invalid state transition: DELIVERED -> STORED")
  ∧ (ParcelsService.updateState 10 .STORED none 1 7 true dbDelivered).2 = dbDelivered
  ∧ (Validator.validateTransition .DELIVERED .STORED false true).valid = true
  ∧ Validator.isValidAdminOverride .DELIVERED .STORED = true :=
  ⟨rfl, rfl, rfl, rfl⟩

/-- C4 (amended): `updateState` never consults the Validator. It decides
by its own inline `STATE_TRANSITIONS` one-step-forward table with no
admin-override capability: on an unlocked live parcel, a one-step
forward target succeeds (audit permitting) and every other target —
including the Validator's DELIVERED→STORED, OUT_FOR_DELIVERY→STORED and
DELIVERY_REQUESTED→STORED admin allowlist — is rejected with
`Invalid state transition: <from> -> <target>`, a message that does not
name the expected next state. -/
theorem updateState_decides_by_inline_table
    (db : DB) (pid : Nat) (p : Parcel) (ns : ParcelState) (notes : Option String)
    (uid now : Nat) (aok : Bool)
    (h : db.findParcel pid = some p) (hd : p.isDeleted = false)
    (hx : p.hasException = false) :
    (ParcelsService.updateState pid ns notes uid now aok db).1
      = if (ParcelsService.STATE_TRANSITIONS p.state).contains ns then
          (if aok then
            .ok { p with
                    state := ns,
                    storedAt := if ns = .STORED then some now else p.storedAt }
          else .error .auditFailure)
        else
          .error (.badRequest ("Invalid state transition: " ++ p.state.toName
            ++ " -> " ++ ns.toName)) := by
  unfold ParcelsService.updateState
  simp only [h]
  rw [if_neg (by simp [hd]), if_neg (by simp [hx])]
  by_cases hn : (ParcelsService.STATE_TRANSITIONS p.state).contains ns = true
  · rw [if_neg (by rw [hn]; simp), if_pos hn]
    cases aok with
    | true => simp [AuditService.log]
    | false => simp [AuditService.log]
  · have hn' : (ParcelsService.STATE_TRANSITIONS p.state).contains ns = false := by
      simpa using hn
    rw [if_pos (by rw [hn']; simp), if_neg hn]

/-- Witness for the C4 amended theorem at `dbDelivered`: DELIVERED is
terminal in the inline table, so STORED (the override target the claim
says admins may reach) is rejected with the inline message. -/
theorem updateState_decides_by_inline_table_witness :
    (ParcelsService.updateState 10 .STORED none 1 7 true dbDelivered).1
      = .error (.badRequest "Invalid state transition: DELIVERED -> STORED") := by
  have h := updateState_decides_by_inline_table dbDelivered 10 deliveredParcel
    .STORED none 1 7 true rfl rfl rfl
  simpa using h

end Warehouse

/-!
### Intake theorems (claim C6)
-/

namespace Warehouse

/-- C6: an Intake whose member code resolves to no active, non-deleted
user creates — in one transaction step — an orphan parcel (`ownerId`
null, `hasException` true, state ARRIVED), its null→ARRIVED history row,
and exactly one OPEN exception of type INVALID_MEMBER_CODE linked to it
(`hfresh` says the store holds no exception already pointing at the new
parcel id, which referential integrity guarantees for a fresh id). -/
theorem intake_orphan_creates_locked_parcel
    (dto : ParcelsService.IntakeDto) (staffId : Nat) (db : DB)
    (hdup : db.findParcelByTracking dto.trackingNumber = none)
    (horph : ∀ u, db.findUserByMemberCode dto.memberCode = some u →
        (u.isDeleted || !u.isActive) = true)
    (hfresh : ∀ e ∈ db.exceptions, e.parcelId ≠ db.nextId) :
    ∃ (pNew : Parcel) (eNew : Exc) (db1 : DB),
      ParcelsService.intake dto staffId true db = (.ok (pNew, some eNew), db1)
      ∧ pNew.id = db.nextId
      ∧ pNew.ownerId = none ∧ pNew.hasException = true ∧ pNew.state = .ARRIVED
      ∧ eNew.parcelId = pNew.id ∧ eNew.status = .OPEN
      ∧ eNew.type = .INVALID_MEMBER_CODE
      ∧ db1.parcels = db.parcels ++ [pNew]
      ∧ db1.history = db.history ++
          [{ parcelId := pNew.id, fromState := none, toState := .ARRIVED,
             changedById := staffId, notes := some "Parcel registered at intake" }]
      ∧ db1.exceptions = db.exceptions ++ [eNew]
      ∧ (db1.exceptions.filter (fun x => x.parcelId == pNew.id
            && x.status == ExceptionStatus.OPEN
            && x.type == ExceptionType.INVALID_MEMBER_CODE)).length = 1 := by
  have hold : ∀ x ∈ db.exceptions,
      (x.parcelId == db.nextId && x.status == ExceptionStatus.OPEN
        && x.type == ExceptionType.INVALID_MEMBER_CODE) = false := by
    intro x hx
    have := hfresh x hx
    simp [this]
  unfold ParcelsService.intake
  simp only [hdup]
  cases howner : db.findUserByMemberCode dto.memberCode with
  | none =>
    simp only [AuditService.log, if_true, Option.toList]
    refine ⟨_, _, _, rfl, rfl, rfl, rfl, rfl, rfl, rfl, rfl, rfl, rfl, rfl, ?_⟩
    rw [List.filter_append]
    rw [List.filter_eq_nil_iff.mpr ?side]
    case side =>
      intro x hx
      simp [hold x hx]
    simp
  | some u =>
    have hor := horph u howner
    simp only [AuditService.log, if_true, hor, Option.toList]
    refine ⟨_, _, _, rfl, rfl, rfl, rfl, rfl, rfl, rfl, rfl, rfl, rfl, rfl, ?_⟩
    rw [List.filter_append]
    rw [List.filter_eq_nil_iff.mpr ?side2]
    case side2 =>
      intro x hx
      simp [hold x hx]
    simp

/-- Witness for C6: intaking `TRK-0002` with the unknown member code
`PHW-GHOST9` into `dbArrived` yields the orphan parcel plus its single
OPEN INVALID_MEMBER_CODE exception. -/
theorem intake_orphan_creates_locked_parcel_witness :
    ∃ (pNew : Parcel) (eNew : Exc) (db1 : DB),
      ParcelsService.intake orphanIntakeDto 1 true dbArrived
        = (.ok (pNew, some eNew), db1)
      ∧ pNew.ownerId = none ∧ pNew.hasException = true
      ∧ eNew.status = .OPEN ∧ eNew.type = .INVALID_MEMBER_CODE
      ∧ (db1.exceptions.filter (fun x => x.parcelId == pNew.id
            && x.status == ExceptionStatus.OPEN
            && x.type == ExceptionType.INVALID_MEMBER_CODE)).length = 1 := by
  obtain ⟨p, e, db1, h1, -, h3, h4, h5, -, h7, h8, -, -, -, h12⟩ :=
    intake_orphan_creates_locked_parcel orphanIntakeDto 1 dbArrived rfl
      (fun u hu => by
        rw [show dbArrived.findUserByMemberCode orphanIntakeDto.memberCode
            = none from rfl] at hu
        cases hu)
      (fun e he => absurd he (by simp [dbArrived]))
  exact ⟨p, e, db1, h1, h3, h4, h7, h8, h12⟩

end Warehouse
